import Mathlib

/-!
A verification development for the `classify-waste` edge function
(`supabase/functions/classify-waste/index.ts`) of the waste-classification
repository.  The function receives a multipart request with an image,
calls an external chat-completion endpoint, and normalizes the model's
raw text answer into a `{category, confidence, reasoning}` payload.

Modelling conventions:
* JavaScript runtime values produced by `JSON.parse` are modelled by the
  inductive type `JsVal`; the JavaScript `undefined` arising from a missing
  property is modelled by `Option JsVal` (with `none` = `undefined`).
* JavaScript numbers are modelled by exact rationals extended with the
  three non-finite values (`JNum`): JSON numerals are represented exactly
  rather than rounded to IEEE doubles (the double rounding never changes
  any comparison appearing in this development, and values beyond the
  double range clamp to the same endpoint as the infinity they would
  become).
* Thrown exceptions are modelled by `Except String`, carrying the
  `error.message` string that the handler's top-level `catch` would
  serialize into its HTTP 500 body.
* `String.toLowerCase`/`toLowerCase`-based comparisons are modelled with
  ASCII lowercasing (`Char.toLower`); every string the function compares
  case-insensitively (the five category labels) is ASCII.
* `aiResponse.substring(0, 200)` counts UTF-16 code units; `substringTake`
  counts characters.  The two agree on all text without surrogate pairs.
-/

namespace Waste

/-- JavaScript numeric values: finite (exact rational model), the two
infinities, and NaN. -/
inductive JNum where
  | fin (q : ℚ)
  | inf
  | negInf
  | nan
deriving DecidableEq

/-- A JavaScript value as produced by `JSON.parse`: `null`, booleans,
numbers, strings, arrays and plain objects (field list in source order;
`JSON.parse` keeps the last binding of a duplicated key, which `getField`
realizes by looking the key up from the right). -/
inductive JsVal where
  | null
  | bool (b : Bool)
  | num (q : ℚ)
  | str (s : String)
  | arr (xs : List JsVal)
  | obj (fields : List (String × JsVal))

/- ---------------------------------------------------------------
   String helpers (models of the JavaScript string built-ins used).
   --------------------------------------------------------------- -/

/-- ASCII lowercasing, the model of `String.prototype.toLowerCase` on the
ASCII strings this function compares. -/
def lowerStr (s : String) : String :=
  String.mk (s.data.map Char.toLower)

/-- Does `cs` start with `pat`? -/
def leadsWith : List Char → List Char → Bool
  | [], _ => true
  | _ :: _, [] => false
  | a :: as, b :: bs => a == b && leadsWith as bs

/-- Does `pat` occur as a contiguous sublist of `cs`?  Model of
`String.prototype.includes`. -/
def hasSubList (pat : List Char) : List Char → Bool
  | [] => leadsWith pat []
  | c :: t => leadsWith pat (c :: t) || hasSubList pat t

/-- `containsSub s pat` models `s.includes(pat)`. -/
def containsSub (s pat : String) : Bool :=
  hasSubList pat.data s.data

/-- `substringTake s n` models `s.substring(0, n)`. -/
def substringTake (s : String) (n : Nat) : String :=
  String.mk (s.data.take n)

/- ---------------------------------------------------------------
   A model of `JSON.parse` (ECMA-404 grammar; numbers kept exact).
   --------------------------------------------------------------- -/

/-- The four JSON insignificant-whitespace characters. -/
def jsonWsChar (c : Char) : Bool :=
  c == ' ' || c == '\t' || c == '\n' || c == '\r'

/-- Drop leading JSON whitespace. -/
def skipWs (cs : List Char) : List Char :=
  cs.dropWhile jsonWsChar

/-- Value of a hexadecimal digit. -/
def hexDigitVal (c : Char) : Option Nat :=
  if '0' ≤ c ∧ c ≤ '9' then some (c.toNat - 48)
  else if 'a' ≤ c ∧ c ≤ 'f' then some (c.toNat - 87)
  else if 'A' ≤ c ∧ c ≤ 'F' then some (c.toNat - 55)
  else none

/-- The single-character JSON string escapes. -/
def escChar (c : Char) : Option Char :=
  match c with
  | '"' => some '"'
  | '\\' => some '\\'
  | '/' => some '/'
  | 'b' => some '\x08'
  | 'f' => some '\x0c'
  | 'n' => some '\n'
  | 'r' => some '\r'
  | 't' => some '\t'
  | _ => none

/-- Parse the body of a JSON string after the opening quote; returns the
decoded characters and the input remaining after the closing quote.
(A `\\u` escape naming an invalid scalar value is mapped by `Char.ofNat`
to `'\x00'`; the texts in this development contain no such escape.) -/
def parseJStringAux : List Char → Option (List Char × List Char)
  | [] => none
  | '"' :: rest => some ([], rest)
  | '\\' :: 'u' :: h1 :: h2 :: h3 :: h4 :: rest =>
    match hexDigitVal h1, hexDigitVal h2, hexDigitVal h3, hexDigitVal h4 with
    | some a, some b, some c, some d =>
      match parseJStringAux rest with
      | some (l, r) => some (Char.ofNat (((a * 16 + b) * 16 + c) * 16 + d) :: l, r)
      | none => none
    | _, _, _, _ => none
  | '\\' :: e :: rest =>
    match escChar e with
    | some c =>
      match parseJStringAux rest with
      | some (l, r) => some (c :: l, r)
      | none => none
    | none => none
  | c :: rest =>
    if c.toNat < 32 then none
    else
      match parseJStringAux rest with
      | some (l, r) => some (c :: l, r)
      | none => none

/-- ASCII decimal digit test. -/
def isDigitCh (c : Char) : Bool :=
  '0' ≤ c && c ≤ '9'

/-- Numeric value of a list of decimal digits. -/
def digitsToNat (ds : List Char) : Nat :=
  ds.foldl (fun n c => n * 10 + (c.toNat - 48)) 0

/-- The exact rational value `sgn * intDigits.fracDigits * 10 ^ (esgn * eDigits)`
of a decimal numeral, assembled with integer arithmetic and one `mkRat`
(so that it evaluates by reduction; the `@[irreducible]` rational
operations of the library are avoided throughout this development). -/
def ratOfDigits (sgn : Int) (intDigits fracDigits : List Char) (esgn : Int)
    (eDigits : List Char) : ℚ :=
  let mant : Int :=
    sgn * ((digitsToNat intDigits * 10 ^ fracDigits.length + digitsToNat fracDigits : Nat) : Int)
  let e : Nat := digitsToNat eDigits
  if esgn < 0 then mkRat mant (10 ^ fracDigits.length * 10 ^ e)
  else mkRat (mant * ((10 ^ e : Nat) : Int)) (10 ^ fracDigits.length)

/-- Parse the mandatory digits of a JSON exponent and finish the numeral. -/
def parseJExpDigits (sgn : Int) (ids fds : List Char) (cs : List Char) :
    Option (JsVal × List Char) :=
  let (esgn, cs1) : Int × List Char :=
    match cs with
    | '+' :: r => (1, r)
    | '-' :: r => (-1, r)
    | _ => (1, cs)
  let (eds, r1) := cs1.span isDigitCh
  if eds = [] then none
  else some (.num (ratOfDigits sgn ids fds esgn eds), r1)

/-- Finish a JSON numeral after its integer/fraction digits. -/
def parseJExpPart (sgn : Int) (ids fds : List Char) (cs : List Char) :
    Option (JsVal × List Char) :=
  match cs with
  | 'e' :: r => parseJExpDigits sgn ids fds r
  | 'E' :: r => parseJExpDigits sgn ids fds r
  | _ => some (.num (ratOfDigits sgn ids fds 1 []), cs)

/-- Parse a JSON numeral (`-? int frac? exp?`, no leading zeros). -/
def parseJNumber (cs : List Char) : Option (JsVal × List Char) :=
  let (sgn, cs1) : Int × List Char :=
    match cs with
    | '-' :: r => (-1, r)
    | _ => (1, cs)
  let (ids, r1) := cs1.span isDigitCh
  if ids = [] then none
  else if ids.length > 1 && ids.headD '0' == '0' then none
  else
    match r1 with
    | '.' :: r2 =>
      let (fds, r3) := r2.span isDigitCh
      if fds = [] then none
      else parseJExpPart sgn ids fds r3
    | _ => parseJExpPart sgn ids [] r1

mutual

/-- Parse one JSON value (fuel-indexed recursive descent). -/
def parseJValue : Nat → List Char → Option (JsVal × List Char)
  | 0, _ => none
  | fuel + 1, cs =>
    match skipWs cs with
    | 't' :: 'r' :: 'u' :: 'e' :: rest => some (.bool true, rest)
    | 'f' :: 'a' :: 'l' :: 's' :: 'e' :: rest => some (.bool false, rest)
    | 'n' :: 'u' :: 'l' :: 'l' :: rest => some (.null, rest)
    | '"' :: rest =>
      match parseJStringAux rest with
      | some (l, r) => some (.str (String.mk l), r)
      | none => none
    | '\x7b' :: rest =>
      match skipWs rest with
      | '\x7d' :: r => some (.obj [], r)
      | cs1 =>
        match parseJMembers fuel cs1 with
        | some (ms, r) => some (.obj ms, r)
        | none => none
    | '[' :: rest =>
      match skipWs rest with
      | ']' :: r => some (.arr [], r)
      | cs1 =>
        match parseJElems fuel cs1 with
        | some (xs, r) => some (.arr xs, r)
        | none => none
    | cs1 => parseJNumber cs1

/-- Parse a non-empty member list of a JSON object, up to and including
the closing brace. -/
def parseJMembers : Nat → List Char → Option (List (String × JsVal) × List Char)
  | 0, _ => none
  | fuel + 1, cs =>
    match skipWs cs with
    | '"' :: rest =>
      match parseJStringAux rest with
      | none => none
      | some (key, rest1) =>
        match skipWs rest1 with
        | ':' :: rest2 =>
          match parseJValue fuel rest2 with
          | none => none
          | some (v, rest3) =>
            match skipWs rest3 with
            | ',' :: rest4 =>
              match parseJMembers fuel rest4 with
              | some (ms, r) => some ((String.mk key, v) :: ms, r)
              | none => none
            | '\x7d' :: rest4 => some ([(String.mk key, v)], rest4)
            | _ => none
        | _ => none
    | _ => none

/-- Parse a non-empty element list of a JSON array, up to and including
the closing bracket. -/
def parseJElems : Nat → List Char → Option (List JsVal × List Char)
  | 0, _ => none
  | fuel + 1, cs =>
    match parseJValue fuel cs with
    | none => none
    | some (v, rest) =>
      match skipWs rest with
      | ',' :: rest1 =>
        match parseJElems fuel rest1 with
        | some (xs, r) => some (v :: xs, r)
        | none => none
      | ']' :: rest1 => some ([v], rest1)
      | _ => none

end

/-- Model of `JSON.parse`: `none` when `JSON.parse` would throw a
`SyntaxError`.  The fuel `s.length + 1` never runs out, since every
recursive call strictly follows at least one consumed character. -/
def jsonParse (s : String) : Option JsVal :=
  match parseJValue (s.length + 1) s.data with
  | some (v, rest) => if skipWs rest = [] then some v else none
  | none => none

/- ---------------------------------------------------------------
   JavaScript value semantics used by the handler: falsiness,
   property access, and `ToNumber` coercion.
   --------------------------------------------------------------- -/

/-- JavaScript falsiness of a `JSON.parse` value (the absent/`undefined`
case is handled at the `Option` level by the caller). -/
def falsy : JsVal → Bool
  | .null => true
  | .bool b => !b
  | .num q => decide (q = 0)
  | .str s => decide (s = "")
  | .arr _ => false
  | .obj _ => false

/-- Property access `v[name]` on a non-`null` value: `none` models
`undefined`.  On an object with a duplicated key, `JSON.parse` keeps the
last binding, hence the lookup from the reversed field list. -/
def getField (v : JsVal) (name : String) : Option JsVal :=
  match v with
  | .obj fields => (fields.reverse.find? (fun p => p.1 == name)).map (fun p => p.2)
  | _ => none

/-- `x || dflt` applied to a possibly-`undefined` value `x`. -/
def jsOrDefault (v : Option JsVal) (dflt : JsVal) : JsVal :=
  match v with
  | none => dflt
  | some w => if falsy w then dflt else w

/-- The JavaScript whitespace stripped by `ToNumber` on strings. -/
def jsWsChar (c : Char) : Bool :=
  c == ' ' || c == '\t' || c == '\n' || c == '\r' || c == '\x0b' || c == '\x0c'
    || c == '\xa0' || c == '\uFEFF'

/-- Strip JavaScript whitespace from both ends. -/
def trimJs (cs : List Char) : List Char :=
  ((cs.dropWhile jsWsChar).reverse.dropWhile jsWsChar).reverse

/-- Value of a digit in the given radix (radix ≤ 16). -/
def radixDigitVal (radix : Nat) (c : Char) : Option Nat :=
  match hexDigitVal c with
  | some v => if v < radix then some v else none
  | none => none

/-- `ToNumber` of a non-decimal integer literal body (`0x…`, `0o…`, `0b…`). -/
def radixToNum (radix : Nat) (cs : List Char) : JNum :=
  if cs = [] then .nan
  else if cs.all (fun c => (radixDigitVal radix c).isSome) then
    .fin (mkRat (cs.foldl (fun n c => n * radix + (radixDigitVal radix c).getD 0) 0 : Nat) 1)
  else .nan

/-- Finish a string numeral: mandatory exponent digits, no trailing text. -/
def strNumExpDigits (sgn : Int) (ids fds : List Char) (cs : List Char) : JNum :=
  let (esgn, cs1) : Int × List Char :=
    match cs with
    | '+' :: r => (1, r)
    | '-' :: r => (-1, r)
    | _ => (1, cs)
  let (eds, r1) := cs1.span isDigitCh
  if eds = [] || r1 ≠ [] then .nan
  else .fin (ratOfDigits sgn ids fds esgn eds)

/-- Finish a string numeral after its integer/fraction digits. -/
def strNumExp (sgn : Int) (ids fds : List Char) (cs : List Char) : JNum :=
  match cs with
  | [] => .fin (ratOfDigits sgn ids fds 1 [])
  | 'e' :: r => strNumExpDigits sgn ids fds r
  | 'E' :: r => strNumExpDigits sgn ids fds r
  | _ => .nan

/-- `ToNumber` of a (signed) decimal string numeral or `Infinity`.
Unlike JSON numerals, `.5`, `5.` and leading zeros are accepted. -/
def strDecimalTail (sgn : Int) (cs : List Char) : JNum :=
  if cs = "Infinity".data then (if sgn < 0 then .negInf else .inf)
  else
    let (ids, r1) := cs.span isDigitCh
    match r1 with
    | '.' :: r2 =>
      let (fds, r3) := r2.span isDigitCh
      if ids = [] && fds = [] then .nan
      else strNumExp sgn ids fds r3
    | _ =>
      if ids = [] then .nan
      else strNumExp sgn ids [] r1

/-- JavaScript `ToNumber` on a string (`StringToNumber`): trimmed empty
string is `0`, `Infinity` and radix literals are recognized, anything
else that is not a decimal numeral is `NaN`. -/
def strToNumber (s : String) : JNum :=
  match trimJs s.data with
  | [] => .fin 0
  | '-' :: rest => strDecimalTail (-1) rest
  | '+' :: rest => strDecimalTail 1 rest
  | '0' :: c :: rest =>
    if c == 'x' || c == 'X' then radixToNum 16 rest
    else if c == 'o' || c == 'O' then radixToNum 8 rest
    else if c == 'b' || c == 'B' then radixToNum 2 rest
    else strDecimalTail 1 ('0' :: c :: rest)
  | cs => strDecimalTail 1 cs

/-- `ToNumber` of a single array element under `Array.prototype.toString`
followed by `StringToNumber`: `null` prints as the empty string (value 0),
booleans print as `true`/`false` (NaN), numbers round-trip, nested
singleton arrays flatten. -/
def toNumberArrayElem : JsVal → JNum
  | .null => .fin 0
  | .bool _ => .nan
  | .num q => .fin q
  | .str s => strToNumber s
  | .obj _ => .nan
  | .arr [] => .fin 0
  | .arr [x] => toNumberArrayElem x
  | .arr (_ :: _ :: _) => .nan

/-- JavaScript `ToNumber` on a `JSON.parse` value.  Arrays coerce through
their string form (`[] → "" → 0`, singletons recursively, longer arrays
contain a comma and give NaN); plain objects give `"[object Object]"`,
hence NaN. -/
def toNumber : JsVal → JNum
  | .null => .fin 0
  | .bool b => .fin (if b then 1 else 0)
  | .num q => .fin q
  | .str s => strToNumber s
  | .obj _ => .nan
  | .arr [] => .fin 0
  | .arr [x] => toNumberArrayElem x
  | .arr (_ :: _ :: _) => .nan

/-- `Math.max` on two numbers (NaN propagates). -/
def jmax : JNum → JNum → JNum
  | .nan, _ => .nan
  | _, .nan => .nan
  | .inf, _ => .inf
  | _, .inf => .inf
  | .negInf, b => b
  | a, .negInf => a
  | .fin a, .fin b => .fin (if a ≤ b then b else a)

/-- `Math.min` on two numbers (NaN propagates). -/
def jmin : JNum → JNum → JNum
  | .nan, _ => .nan
  | _, .nan => .nan
  | .negInf, _ => .negInf
  | _, .negInf => .negInf
  | .inf, b => b
  | a, .inf => a
  | .fin a, .fin b => .fin (if a ≤ b then a else b)

/- ---------------------------------------------------------------
   The Result Normalizer (index.ts lines 104-139).
   --------------------------------------------------------------- -/

/-- The closed category set of the keyword fallback (line 116). -/
def categories : List String :=
  ["Plastic", "Paper", "Organic", "Metal", "Glass"]

/-- The closed category set of the normalization step (line 129). -/
def validCategories : List String :=
  ["Plastic", "Paper", "Organic", "Metal", "Glass"]

/-- `aiResponse.toLowerCase().includes(cat.toLowerCase())` (lines 117-119). -/
def occursIn (s cat : String) : Bool :=
  containsSub (lowerStr s) (lowerStr cat)

/-- `categories.find(...) || 'Plastic'` (lines 117-122): the first label of
`categories` occurring case-insensitively in the text, else `"Plastic"`
(`find` yields `undefined` when nothing matches, and every label is a
non-empty, hence truthy, string). -/
def keywordCategory (s : String) : String :=
  (categories.find? (fun cat => occursIn s cat)).getD "Plastic"

/-- The literal `0.75` of line 123. -/
def fallbackConfidence : ℚ := mkRat 75 100

/-- The object built in the `catch` branch (lines 121-125). -/
def fallbackResult (s : String) : JsVal :=
  .obj [("category", .str (keywordCategory s)),
        ("confidence", .num fallbackConfidence),
        ("reasoning", .str (substringTake s 200))]

/-- The regex search `aiResponse.match(/\{[\s\S]*\}/)` (line 107): the
match exists iff some `'{'` is followed by a later `'}'`, and then spans
from the first `'{'` to the last `'}'` (greedy `[\s\S]*`). -/
def jsonMatch (s : String) : Option String :=
  match s.data.findIdx? (· == '\x7b'), s.data.reverse.findIdx? (· == '\x7d') with
  | some i, some k =>
    let j := s.data.length - 1 - k
    if i < j then some (String.mk ((s.data.drop i).take (j - i + 1))) else none
  | _, _ => none

/-- The single `JSON.parse` attempt of the `try` block (lines 107-112):
the matched substring when the regex matches, otherwise the whole text.
`none` models `JSON.parse` throwing, i.e. control reaching the `catch`. -/
def parsedResult (s : String) : Option JsVal :=
  match jsonMatch s with
  | some sub => jsonParse sub
  | none => jsonParse s

/-- The whole parse block (lines 104-126): the value bound to `result`,
with the `catch` branch building the keyword-fallback object. -/
def runParse (s : String) : JsVal :=
  match jsonMatch s with
  | some sub =>
    match jsonParse sub with
    | some v => v
    | none => fallbackResult s
  | none =>
    match jsonParse s with
    | some v => v
    | none => fallbackResult s

/-- Modelled from the words of claim C3 and spec §4.2 (NOT from the code):
first attempt to parse the entire text; only if that fails, search for the
brace-delimited substring and parse it.  Compared against `parsedResult`,
the order the code actually implements. -/
def parsedResultSpecOrder (s : String) : Option JsVal :=
  match jsonParse s with
  | some v => some v
  | none =>
    match jsonMatch s with
    | some sub => jsonParse sub
    | none => none

/-- `result.category?.toLowerCase()` (line 131): throws a `TypeError`
(modelled by `.error`) when `result` is `null` or `result.category` is a
non-nullish value without a `toLowerCase` method. -/
def lowerCategory (result : JsVal) : Except String (Option String) :=
  match result with
  | .null => .error "Cannot read properties of null (reading 'category')"
  | v =>
    match getField v "category" with
    | none => .ok none
    | some .null => .ok none
    | some (.str c) => .ok (some (lowerStr c))
    | some _ => .error "result.category?.toLowerCase is not a function"

/-- `validCategories.find(cat => cat.toLowerCase() === result.category?.toLowerCase())
|| result.category` (lines 130-132).  `none` models `undefined` (the key
is then omitted from the serialized payload). -/
def normalizedCategory (result : JsVal) : Except String (Option JsVal) :=
  match lowerCategory result with
  | .error e => .error e
  | .ok lc =>
    match validCategories.find? (fun cat => some (lowerStr cat) == lc) with
    | some cat => .ok (some (.str cat))
    | none => .ok (getField result "category")

/-- The literal `0.8` of line 137. -/
def defaultConfidence : ℚ := mkRat 8 10

/-- `Math.min(Math.max(result.confidence || 0.8, 0), 1)` (line 137). -/
def confOut (result : JsVal) : JNum :=
  jmin (jmax (toNumber (jsOrDefault (getField result "confidence") (.num defaultConfidence)))
    (.fin 0)) (.fin 1)

/-- The literal default reasoning of line 138. -/
def defaultReasoning : String := "Classification based on visual analysis"

/-- `result.reasoning || 'Classification based on visual analysis'` (line 138). -/
def reasoningOut (result : JsVal) : JsVal :=
  jsOrDefault (getField result "reasoning") (.str defaultReasoning)

/-- The success payload of lines 135-139: `JSON.stringify` omits the
`category` key when it is `undefined` (`none`), and serializes a NaN
confidence as `null`. -/
structure SuccessBody where
  category : Option JsVal
  confidence : JNum
  reasoning : JsVal

/-- The normalization step (lines 128-139) applied to the parsed or
fallback-derived `result`; `.error` models a thrown `TypeError`, which the
handler's top-level `catch` would turn into an HTTP 500. -/
def normalizeResult (result : JsVal) : Except String SuccessBody :=
  match normalizedCategory result with
  | .error e => .error e
  | .ok cat => .ok ⟨cat, confOut result, reasoningOut result⟩

/-- The full Result Normalizer: parse tiers (lines 104-126) followed by
normalization (lines 128-139). -/
def normalizeResponse (s : String) : Except String SuccessBody :=
  normalizeResult (runParse s)

/- ---------------------------------------------------------------
   The Classification Handler (index.ts lines 8-158).
   --------------------------------------------------------------- -/

/-- An image file extracted from the multipart form (`formData.get('image')`).
Its content plays no role in any claim: it is only embedded into the
outbound request, whose answer is the `UpstreamResp` parameter. -/
structure ImageFile where
  mime : String
  bytes : List Nat

/-- The inbound request: its method, and the outcome of
`await req.formData()` followed by `formData.get('image')`.
`.error m` models `formData()` rejecting (with message `m`);
`.ok none` models a form without an `image` field. -/
structure Request where
  method : String
  form : Except String (Option ImageFile)

/-- The response of the single outbound `fetch`: its HTTP status and the
extracted `data.choices?.[0]?.message?.content` (`none` models an absent
or nullish content). -/
structure UpstreamResp where
  status : Nat
  content : Option String

/-- `response.ok`: status in the 200-299 range. -/
def upstreamOk (u : UpstreamResp) : Bool :=
  decide (200 ≤ u.status) && decide (u.status < 300)

/-- `!LOVABLE_API_KEY` is falsy for an absent or empty environment value. -/
def truthyKey : Option String → Bool
  | none => false
  | some s => !(s == "")

/-- The handler's HTTP responses.  `errorJson st e` is status `st` with
body `{error: e}`; `serverError e` is status 500 with body
`{error: e, details: 'Failed to classify waste. Please try again.'}`;
`preflight` is the bare CORS answer to OPTIONS; all carry the permissive
CORS headers. -/
inductive HResp where
  | preflight
  | errorJson (status : Nat) (error : String)
  | success (body : SuccessBody)
  | serverError (error : String)

/-- The body of the `try` block (lines 14-143), with thrown errors as
`.error` carrying `error.message`. -/
def handleTry (apiKey : Option String) (req : Request) (u : UpstreamResp) :
    Except String HResp :=
  if !truthyKey apiKey then .error "LOVABLE_API_KEY not configured"
  else
    match req.form with
    | .error e => .error e
    | .ok none => .ok (.errorJson 400 "No image provided")
    | .ok (some _) =>
      if !upstreamOk u then
        if u.status == 429 then
          .ok (.errorJson 429 "Rate limit exceeded. Please try again later.")
        else if u.status == 402 then
          .ok (.errorJson 402 "AI credits exhausted. Please add credits to your workspace.")
        else .error ("AI Gateway error: " ++ toString u.status)
      else
        match u.content with
        | none => .error "No response from AI"
        | some s =>
          if s == "" then .error "No response from AI"
          else
            match normalizeResponse s with
            | .ok b => .ok (.success b)
            | .error e => .error e

/-- The whole `serve` handler: OPTIONS preflight short-circuit, then the
`try` block with its top-level `catch` => HTTP 500 (lines 8-158). -/
def handler (apiKey : Option String) (req : Request) (u : UpstreamResp) : HResp :=
  if req.method == "OPTIONS" then .preflight
  else
    match handleTry apiKey req u with
    | .ok r => r
    | .error e => .serverError e

/- ---------------------------------------------------------------
   Helper lemmas.
   --------------------------------------------------------------- -/

/-- A successful normalization determines the three output fields. -/
lemma normalizeResult_ok {result : JsVal} {b : SuccessBody}
    (hok : normalizeResult result = .ok b) :
    normalizedCategory result = .ok b.category ∧ b.confidence = confOut result
      ∧ b.reasoning = reasoningOut result := by
  unfold normalizeResult at hok
  cases h : normalizedCategory result with
  | error e => simp [h] at hok
  | ok cat =>
    simp only [h] at hok
    cases hok
    exact ⟨rfl, rfl, rfl⟩

/-- `confOut` depends on the parsed value only through its `confidence`
field. -/
lemma confOut_eq (result : JsVal) :
    confOut result
      = jmin (jmax (toNumber (jsOrDefault (getField result "confidence")
          (.num defaultConfidence))) (.fin 0)) (.fin 1) := rfl

/-- The clamp on finite values is `min (max q 0) 1`. -/
lemma jclamp_fin (q : ℚ) :
    jmin (jmax (.fin q) (.fin 0)) (.fin 1) = .fin (min (max q 0) 1) := by
  simp only [jmax, jmin]
  rw [max_def, min_def]

/- ---------------------------------------------------------------
   Claim C1.
   --------------------------------------------------------------- -/

/-- Claim C1, counterexample: the upstream text reports the non-numeric
confidence `"high"`; being truthy it survives `result.confidence || 0.8`,
and `Math.min(Math.max("high", 0), 1)` coerces it to NaN — the returned
confidence is neither a number in `[0, 1]` nor the default `0.8`
(`JSON.stringify` serializes the NaN as `null`). -/
theorem claim1_counterexample :
    normalizeResponse "\x7b\"category\":\"plastic\",\"confidence\":\"high\",\"reasoning\":\"r\"\x7d"
      = .ok ⟨some (.str "Plastic"), .nan, .str "r"⟩ := rfl

/-- Claim C1 (amended): for every parsed value whose `confidence` field is
absent, falsy, or a number, the confidence of the success payload is a
number in `[0, 1]` inclusive: absent or falsy values are replaced by the
default `0.8`, and non-zero numeric values are clamped to `min (max q 0) 1`.
(As stated the claim fails for truthy non-numeric values, which are
coerced rather than defaulted — see the counterexample.) -/
theorem claim1_confidence_clamped (result : JsVal) (b : SuccessBody)
    (hok : normalizeResult result = .ok b)
    (hshape : getField result "confidence" = none
      ∨ ∃ w, getField result "confidence" = some w
          ∧ (falsy w = true ∨ ∃ q, w = JsVal.num q)) :
    (∃ c, b.confidence = .fin c ∧ 0 ≤ c ∧ c ≤ 1)
    ∧ ((getField result "confidence" = none
        ∨ ∃ w, getField result "confidence" = some w ∧ falsy w = true)
       → b.confidence = .fin defaultConfidence)
    ∧ (∀ q, getField result "confidence" = some (JsVal.num q) → q ≠ 0
       → b.confidence = .fin (min (max q 0) 1)) := by
  obtain ⟨-, hcf, -⟩ := normalizeResult_ok hok
  have hdef : (getField result "confidence" = none
      ∨ ∃ w, getField result "confidence" = some w ∧ falsy w = true)
      → b.confidence = .fin defaultConfidence := by
    intro hv
    rcases hv with hn | ⟨w, hw, hfw⟩
    · rw [hcf, confOut_eq, hn]; rfl
    · rw [hcf, confOut_eq, hw]
      show jmin (jmax (toNumber (if falsy w = true then JsVal.num defaultConfidence else w))
        (.fin 0)) (.fin 1) = .fin defaultConfidence
      rw [hfw]
      rfl
  have hnum : ∀ q : ℚ, getField result "confidence" = some (JsVal.num q) → q ≠ 0
      → b.confidence = .fin (min (max q 0) 1) := by
    intro q hq hqne
    rw [hcf, confOut_eq, hq]
    show jmin (jmax (toNumber (if falsy (JsVal.num q) = true then JsVal.num defaultConfidence
      else JsVal.num q)) (.fin 0)) (.fin 1) = _
    have hf : falsy (JsVal.num q) = false := decide_eq_false hqne
    rw [hf]
    show jmin (jmax (.fin q) (.fin 0)) (.fin 1) = _
    exact jclamp_fin q
  refine ⟨?_, hdef, hnum⟩
  rcases hshape with hn | ⟨w, hw, hfw | ⟨q, rfl⟩⟩
  · exact ⟨defaultConfidence, hdef (Or.inl hn), by decide, by decide⟩
  · exact ⟨defaultConfidence, hdef (Or.inr ⟨w, hw, hfw⟩), by decide, by decide⟩
  · by_cases hq0 : q = 0
    · subst hq0
      exact ⟨defaultConfidence, hdef (Or.inr ⟨_, hw, by decide⟩), by decide, by decide⟩
    · exact ⟨min (max q 0) 1, hnum q hw hq0,
        le_min (le_max_right q 0) zero_le_one, min_le_right _ 1⟩

/-- Claim C1, witness: the amended theorem applied to a parsed value whose
`confidence` field is the number `3/2`, clamped to `1` in the payload. -/
theorem claim1_witness :
    (∃ c, (⟨some (.str "Glass"), .fin 1, .str defaultReasoning⟩ : SuccessBody).confidence
        = .fin c ∧ 0 ≤ c ∧ c ≤ 1)
    ∧ ((getField (.obj [("category", .str "glass"), ("confidence", .num (mkRat 3 2))]) "confidence" = none
        ∨ ∃ w, getField (.obj [("category", .str "glass"), ("confidence", .num (mkRat 3 2))]) "confidence"
            = some w ∧ falsy w = true)
       → (⟨some (.str "Glass"), .fin 1, .str defaultReasoning⟩ : SuccessBody).confidence
          = .fin defaultConfidence)
    ∧ (∀ q, getField (.obj [("category", .str "glass"), ("confidence", .num (mkRat 3 2))]) "confidence"
          = some (JsVal.num q) → q ≠ 0
       → (⟨some (.str "Glass"), .fin 1, .str defaultReasoning⟩ : SuccessBody).confidence
          = .fin (min (max q 0) 1)) :=
  claim1_confidence_clamped
    (.obj [("category", .str "glass"), ("confidence", .num (mkRat 3 2))])
    ⟨some (.str "Glass"), .fin 1, .str defaultReasoning⟩
    rfl
    (Or.inr ⟨.num (mkRat 3 2), rfl, Or.inr ⟨mkRat 3 2, rfl⟩⟩)

/- ---------------------------------------------------------------
   Claim C2.
   --------------------------------------------------------------- -/

/-- A `category` field holding a string fixes the `lowerCategory` value. -/
lemma lowerCategory_of_str {result : JsVal} {c : String}
    (hc : getField result "category" = some (.str c)) :
    lowerCategory result = .ok (some (lowerStr c)) := by
  rcases result with _ | bb | q | s | xs | fs
  · simp [getField] at hc
  · simp [getField] at hc
  · simp [getField] at hc
  · simp [getField] at hc
  · simp [getField] at hc
  · show (match getField (.obj fs) "category" with
      | none => Except.ok none
      | some .null => Except.ok none
      | some (.str c1) => Except.ok (some (lowerStr c1))
      | some _ =>
        Except.error "result.category?.toLowerCase is not a function") = _
    rw [hc]

/-- Claim C2: every parsed or fallback-derived category string is matched
case-insensitively against the closed five-member set
`{Plastic, Paper, Organic, Metal, Glass}`; on a match the returned
category is the canonically-cased set member, and when no
case-insensitive match exists the raw string passes through unchanged —
so every returned category is either a closed-set label or the unmodified
upstream string. -/
theorem claim2_category_normalization (result : JsVal) (b : SuccessBody) (c : String)
    (hok : normalizeResult result = .ok b)
    (hc : getField result "category" = some (.str c)) :
    (∃ cat, cat ∈ validCategories ∧ lowerStr cat = lowerStr c
        ∧ b.category = some (.str cat))
    ∨ ((∀ cat ∈ validCategories, lowerStr cat ≠ lowerStr c)
        ∧ b.category = some (.str c)) := by
  obtain ⟨hcat, -, -⟩ := normalizeResult_ok hok
  have hlc := lowerCategory_of_str hc
  have hnc : normalizedCategory result
      = (match validCategories.find? (fun cat => some (lowerStr cat) == some (lowerStr c)) with
         | some cat => .ok (some (.str cat))
         | none => .ok (getField result "category")) := by
    unfold normalizedCategory
    rw [hlc]
  cases hfind : validCategories.find? (fun cat => some (lowerStr cat) == some (lowerStr c)) with
  | some cat =>
    left
    refine ⟨cat, List.mem_of_find?_eq_some hfind, ?_, ?_⟩
    · have hp := List.find?_some hfind
      simpa using hp
    · rw [hnc, hfind] at hcat
      exact (Except.ok.inj hcat).symm
  | none =>
    right
    constructor
    · intro cat hmem heq
      have hp := List.find?_eq_none.mp hfind cat hmem
      exact hp (by simp [heq])
    · rw [hnc, hfind, hc] at hcat
      exact (Except.ok.inj hcat).symm

/-- Claim C2, witness: the theorem applied to a parsed value whose
category string `"ORGANIC"` differs from the canonical label only by
case; the payload carries `"Organic"`. -/
theorem claim2_witness :
    (∃ cat, cat ∈ validCategories ∧ lowerStr cat = lowerStr "ORGANIC"
        ∧ (⟨some (.str "Organic"), .fin defaultConfidence, .str defaultReasoning⟩
            : SuccessBody).category = some (.str cat))
    ∨ ((∀ cat ∈ validCategories, lowerStr cat ≠ lowerStr "ORGANIC")
        ∧ (⟨some (.str "Organic"), .fin defaultConfidence, .str defaultReasoning⟩
            : SuccessBody).category = some (.str "ORGANIC")) :=
  claim2_category_normalization (.obj [("category", .str "ORGANIC")])
    ⟨some (.str "Organic"), .fin defaultConfidence, .str defaultReasoning⟩
    "ORGANIC" rfl rfl

/- ---------------------------------------------------------------
   Claim C9.
   --------------------------------------------------------------- -/

/-- Claim C9: when the parsed value's `confidence` field is falsy —
including the legitimate numeric `0`, as well as `null`, `false` and the
empty string — the returned confidence is the default `0.8` rather than
the clamped reported value, because `result.confidence || 0.8` tests
falsiness, not absence. -/
theorem claim9_falsy_confidence_default (result : JsVal) (b : SuccessBody) (v : JsVal)
    (hok : normalizeResult result = .ok b)
    (hv : getField result "confidence" = some v) (hfal : falsy v = true) :
    b.confidence = .fin defaultConfidence := by
  obtain ⟨-, hcf, -⟩ := normalizeResult_ok hok
  rw [hcf, confOut_eq, hv]
  show jmin (jmax (toNumber (if falsy v = true then JsVal.num defaultConfidence else v))
    (.fin 0)) (.fin 1) = _
  rw [hfal]
  rfl

/-- Claim C9, witness: the theorem applied to a parsed value reporting the
numeric confidence `0`; the payload carries `0.8`. -/
theorem claim9_witness :
    (⟨some (.str "Plastic"), .fin defaultConfidence, .str "zero"⟩
      : SuccessBody).confidence = .fin defaultConfidence :=
  claim9_falsy_confidence_default
    (.obj [("category", .str "plastic"), ("confidence", .num 0), ("reasoning", .str "zero")])
    ⟨some (.str "Plastic"), .fin defaultConfidence, .str "zero"⟩
    (.num 0) rfl rfl (by decide)

/- ---------------------------------------------------------------
   Claim C3.
   --------------------------------------------------------------- -/

/-- Claim C3, counterexample: on the text
`[{"category":"metal","confidence":0.5,"reasoning":"r"}]` the claimed
order (strict whole-text parse first) would parse the whole text as an
array, yielding a payload with no category; the code instead parses the
brace-delimited substring first and returns category `"Metal"`.  The two
tier orders disagree, so the parse block does not apply the strict parse
before the embedded-object scan. -/
theorem claim3_counterexample :
    parsedResult "[\x7b\"category\":\"metal\",\"confidence\":0.5,\"reasoning\":\"r\"\x7d]"
      ≠ parsedResultSpecOrder "[\x7b\"category\":\"metal\",\"confidence\":0.5,\"reasoning\":\"r\"\x7d]"
    ∧ normalizeResponse "[\x7b\"category\":\"metal\",\"confidence\":0.5,\"reasoning\":\"r\"\x7d]"
      = .ok ⟨some (.str "Metal"), .fin (mkRat 1 2), .str "r"⟩
    ∧ normalizeResult
        ((parsedResultSpecOrder "[\x7b\"category\":\"metal\",\"confidence\":0.5,\"reasoning\":\"r\"\x7d]").getD
          (fallbackResult "[\x7b\"category\":\"metal\",\"confidence\":0.5,\"reasoning\":\"r\"\x7d]"))
      = .ok ⟨none, .fin defaultConfidence, .str defaultReasoning⟩ := by
  refine ⟨?_, rfl, rfl⟩
  intro h
  rw [show parsedResult "[\x7b\"category\":\"metal\",\"confidence\":0.5,\"reasoning\":\"r\"\x7d]"
        = some (.obj [("category", .str "metal"), ("confidence", .num (mkRat 1 2)),
            ("reasoning", .str "r")]) from rfl,
      show parsedResultSpecOrder "[\x7b\"category\":\"metal\",\"confidence\":0.5,\"reasoning\":\"r\"\x7d]"
        = some (.arr [.obj [("category", .str "metal"), ("confidence", .num (mkRat 1 2)),
            ("reasoning", .str "r")]]) from rfl] at h
  exact JsVal.noConfusion (Option.some.inj h)

/-- Claim C3 (amended): the parse block's actual priority order is the
reverse of the claimed one: when the text contains a substring from a
`'{'` to a later `'}'`, that substring (first `'{'` to greedy last `'}'`)
is parsed and the whole text is never strict-parsed; only when no such
substring exists is the entire text parsed; if the single attempted parse
fails, the keyword fallback is used. -/
theorem claim3_tier_order (s : String) :
    (∀ sub, jsonMatch s = some sub → runParse s = (jsonParse sub).getD (fallbackResult s))
    ∧ (jsonMatch s = none → runParse s = (jsonParse s).getD (fallbackResult s)) := by
  constructor
  · intro sub hm
    unfold runParse
    rw [hm]
    show (match jsonParse sub with | some v => v | none => fallbackResult s)
      = (jsonParse sub).getD (fallbackResult s)
    cases jsonParse sub <;> rfl
  · intro hm
    unfold runParse
    rw [hm]
    show (match jsonParse s with | some v => v | none => fallbackResult s)
      = (jsonParse s).getD (fallbackResult s)
    cases jsonParse s <;> rfl

/-- Claim C3, witness: the amended theorem applied to a text with an
embedded object (the substring is parsed) and to a brace-free text (the
whole text is parsed). -/
theorem claim3_witness :
    runParse "x \x7b\"category\":\"paper\"\x7d y"
      = (jsonParse "\x7b\"category\":\"paper\"\x7d").getD
          (fallbackResult "x \x7b\"category\":\"paper\"\x7d y")
    ∧ runParse "plain text"
      = (jsonParse "plain text").getD (fallbackResult "plain text") :=
  ⟨(claim3_tier_order "x \x7b\"category\":\"paper\"\x7d y").1
      "\x7b\"category\":\"paper\"\x7d" rfl,
   (claim3_tier_order "plain text").2 rfl⟩

/- ---------------------------------------------------------------
   Claim C5.
   --------------------------------------------------------------- -/

/-- The parse block equals the single parse attempt with the fallback as
default. -/
lemma runParse_eq (s : String) :
    runParse s = (parsedResult s).getD (fallbackResult s) := by
  unfold runParse parsedResult
  cases hm : jsonMatch s with
  | some sub =>
    show (match jsonParse sub with | some v => v | none => fallbackResult s)
      = (jsonParse sub).getD (fallbackResult s)
    cases jsonParse sub <;> rfl
  | none =>
    show (match jsonParse s with | some v => v | none => fallbackResult s)
      = (jsonParse s).getD (fallbackResult s)
    cases jsonParse s <;> rfl

/-- Normalizing the keyword-fallback object always succeeds: its category
field is a string, so no `TypeError` can be thrown. -/
lemma normalizeResult_fallback_ok (s : String) :
    ∃ b, normalizeResult (fallbackResult s) = .ok b := by
  have hlc := @lowerCategory_of_str (fallbackResult s) (keywordCategory s) rfl
  have hnc : normalizedCategory (fallbackResult s)
      = (match validCategories.find?
            (fun cat => some (lowerStr cat) == some (lowerStr (keywordCategory s))) with
         | some cat => .ok (some (.str cat))
         | none => .ok (getField (fallbackResult s) "category")) := by
    unfold normalizedCategory
    rw [hlc]
  unfold normalizeResult
  rw [hnc]
  cases validCategories.find?
      (fun cat => some (lowerStr cat) == some (lowerStr (keywordCategory s))) <;>
    exact ⟨_, rfl⟩

/-- Claim C5, counterexample: the model text `"null"` parses (to `null`),
and the normalization step itself then throws a `TypeError` reading
`null.category` — surfaced by the top-level catch as an HTTP 500 — so the
Normalizer does not terminate without error on every input string. -/
theorem claim5_counterexample :
    normalizeResponse "null"
      = .error "Cannot read properties of null (reading 'category')" := rfl

/-- Claim C5 (amended): the error branch of the parse is always recovered
by the keyword fallback: on every input string on which the single parse
attempt fails, the Normalizer terminates without error and produces a
`{category, confidence, reasoning}` result.  (The normalization step can
still throw — only when the text parses to `null` or to a value whose
category field is non-nullish and non-string; see the counterexample.) -/
theorem claim5_fallback_never_fails (s : String) (hfail : parsedResult s = none) :
    ∃ b, normalizeResponse s = .ok b := by
  unfold normalizeResponse
  rw [runParse_eq, hfail]
  exact normalizeResult_fallback_ok s

/-- Claim C5, witness: the amended theorem applied to an unparseable
text. -/
theorem claim5_witness :
    ∃ b, normalizeResponse "?? completely unparseable text !!" = .ok b :=
  claim5_fallback_never_fails "?? completely unparseable text !!" rfl

/- ---------------------------------------------------------------
   Claim C4.
   --------------------------------------------------------------- -/

/-- A truncated prefix of a non-empty string is non-empty. -/
lemma substringTake_ne_empty {s : String} (h : s ≠ "") (n : Nat) (hn : n ≠ 0) :
    substringTake s n ≠ "" := by
  cases s with
  | mk data =>
    cases data with
    | nil => exact absurd rfl h
    | cons c t =>
      cases n with
      | zero => exact absurd rfl hn
      | succ m =>
        intro heq
        have hd := congrArg String.data heq
        simp [substringTake] at hd

/-- On the happy path (key configured, image present, upstream success,
non-empty content) the handler returns the Normalizer's successful
payload. -/
lemma handler_success {key : Option String} {req : Request} {u : UpstreamResp}
    {f : ImageFile} {s : String} {b : SuccessBody}
    (hkey : truthyKey key = true) (hm : req.method ≠ "OPTIONS")
    (hform : req.form = .ok (some f)) (hup : upstreamOk u = true)
    (hc : u.content = some s) (hne : s ≠ "")
    (hb : normalizeResponse s = .ok b) :
    handler key req u = .success b := by
  unfold handler handleTry
  simp only [beq_eq_false_iff_ne.mpr hm, hkey, hform, hup, hc,
    beq_eq_false_iff_ne.mpr hne, hb, Bool.not_true]
  rfl

/-- Normalizing a fallback-shaped object whose category is one of the five
canonical labels returns the label, the fixed confidence and the raw
(non-empty) reasoning unchanged. -/
lemma normalizeResult_fallback_concrete (k t : String) (hk : k ∈ categories) (ht : t ≠ "") :
    normalizeResult (.obj [("category", .str k), ("confidence", .num fallbackConfidence),
        ("reasoning", .str t)])
      = .ok ⟨some (.str k), .fin fallbackConfidence, .str t⟩ := by
  have hr : reasoningOut (.obj [("category", .str k),
      ("confidence", .num fallbackConfidence), ("reasoning", .str t)]) = .str t := by
    show jsOrDefault (some (.str t)) (.str defaultReasoning) = .str t
    simp [jsOrDefault, falsy, ht]
  have hnc : normalizedCategory (.obj [("category", .str k),
      ("confidence", .num fallbackConfidence), ("reasoning", .str t)])
      = .ok (some (.str k)) := by
    simp only [categories, List.mem_cons, List.not_mem_nil, or_false] at hk
    rcases hk with rfl | rfl | rfl | rfl | rfl <;> rfl
  unfold normalizeResult
  rw [hnc, hr]
  rfl

/-- The Normalizer output on the keyword-fallback path: canonical first
occurring label (default `"Plastic"`), fixed confidence, truncated raw
reasoning. -/
lemma claim4_core (s : String) (hne : s ≠ "") (hfail : parsedResult s = none) :
    ∃ cat, normalizeResponse s
        = .ok ⟨some (.str cat), .fin fallbackConfidence, .str (substringTake s 200)⟩
      ∧ ((cat ∈ categories ∧ occursIn s cat = true
            ∧ ∀ d ∈ categories.takeWhile (· != cat), occursIn s d = false)
         ∨ (cat = "Plastic" ∧ ∀ d ∈ categories, occursIn s d = false)) := by
  have hbody : ∀ k, keywordCategory s = k → k ∈ categories →
      normalizeResponse s
        = .ok ⟨some (.str k), .fin fallbackConfidence, .str (substringTake s 200)⟩ := by
    intro k hk hkmem
    have hnr : normalizeResponse s = normalizeResult (fallbackResult s) := by
      unfold normalizeResponse
      rw [runParse_eq, hfail]
      rfl
    have hfb : fallbackResult s
        = .obj [("category", .str k), ("confidence", .num fallbackConfidence),
                ("reasoning", .str (substringTake s 200))] := by
      unfold fallbackResult
      rw [hk]
    rw [hnr, hfb]
    exact normalizeResult_fallback_concrete k _ hkmem
      (substringTake_ne_empty hne 200 (by decide))
  cases h1 : occursIn s "Plastic" with
  | true =>
    refine ⟨"Plastic", hbody "Plastic" ?_ (by decide), Or.inl ⟨by decide, h1, ?_⟩⟩
    · simp [keywordCategory, categories, List.find?, h1]
    · intro d hd
      rw [show categories.takeWhile (· != "Plastic") = [] from rfl] at hd
      exact absurd hd (List.not_mem_nil d)
  | false =>
    cases h2 : occursIn s "Paper" with
    | true =>
      refine ⟨"Paper", hbody "Paper" ?_ (by decide), Or.inl ⟨by decide, h2, ?_⟩⟩
      · simp [keywordCategory, categories, List.find?, h1, h2]
      · intro d hd
        rw [show categories.takeWhile (· != "Paper") = ["Plastic"] from rfl] at hd
        simp at hd
        subst hd
        exact h1
    | false =>
      cases h3 : occursIn s "Organic" with
      | true =>
        refine ⟨"Organic", hbody "Organic" ?_ (by decide), Or.inl ⟨by decide, h3, ?_⟩⟩
        · simp [keywordCategory, categories, List.find?, h1, h2, h3]
        · intro d hd
          rw [show categories.takeWhile (· != "Organic") = ["Plastic", "Paper"] from rfl] at hd
          simp at hd
          rcases hd with rfl | rfl
          · exact h1
          · exact h2
      | false =>
        cases h4 : occursIn s "Metal" with
        | true =>
          refine ⟨"Metal", hbody "Metal" ?_ (by decide), Or.inl ⟨by decide, h4, ?_⟩⟩
          · simp [keywordCategory, categories, List.find?, h1, h2, h3, h4]
          · intro d hd
            rw [show categories.takeWhile (· != "Metal")
                = ["Plastic", "Paper", "Organic"] from rfl] at hd
            simp at hd
            rcases hd with rfl | rfl | rfl
            · exact h1
            · exact h2
            · exact h3
        | false =>
          cases h5 : occursIn s "Glass" with
          | true =>
            refine ⟨"Glass", hbody "Glass" ?_ (by decide), Or.inl ⟨by decide, h5, ?_⟩⟩
            · simp [keywordCategory, categories, List.find?, h1, h2, h3, h4, h5]
            · intro d hd
              rw [show categories.takeWhile (· != "Glass")
                  = ["Plastic", "Paper", "Organic", "Metal"] from rfl] at hd
              simp at hd
              rcases hd with rfl | rfl | rfl | rfl
              · exact h1
              · exact h2
              · exact h3
              · exact h4
          | false =>
            refine ⟨"Plastic", hbody "Plastic" ?_ (by decide), Or.inr ⟨rfl, ?_⟩⟩
            · simp [keywordCategory, categories, List.find?, h1, h2, h3, h4, h5]
            · intro d hd
              simp [categories] at hd
              rcases hd with rfl | rfl | rfl | rfl | rfl
              exacts [h1, h2, h3, h4, h5]

/-- Claim C4: for every raw model text the handler processes (non-empty,
by the `!aiResponse` guard) on which the single parse attempt fails, the
success payload carries: as category the first member of the closed set,
in the set's order, occurring case-insensitively in the text (defaulting
to `"Plastic"`, the set's first member), confidence exactly `0.75`, and
reasoning the prefix of the raw text of at most 200 characters. -/
theorem claim4_keyword_fallback (key : Option String) (req : Request) (u : UpstreamResp)
    (f : ImageFile) (s : String)
    (hkey : truthyKey key = true) (hm : req.method ≠ "OPTIONS")
    (hform : req.form = .ok (some f)) (hup : upstreamOk u = true)
    (hc : u.content = some s) (hne : s ≠ "")
    (hfail : parsedResult s = none) :
    ∃ cat, handler key req u
        = .success ⟨some (.str cat), .fin fallbackConfidence, .str (substringTake s 200)⟩
      ∧ ((cat ∈ categories ∧ occursIn s cat = true
            ∧ ∀ d ∈ categories.takeWhile (· != cat), occursIn s d = false)
         ∨ (cat = "Plastic" ∧ ∀ d ∈ categories, occursIn s d = false)) := by
  obtain ⟨cat, hresp, hside⟩ := claim4_core s hne hfail
  exact ⟨cat, handler_success hkey hm hform hup hc hne hresp, hside⟩

/-- Claim C4, witness: the theorem applied to the unparseable text
`"I think this is made of METAL and recyclable"`; the second conjunct
pins the resulting category down to `"Metal"` with confidence `0.75` and
the full (44-character) text as reasoning. -/
theorem claim4_witness :
    (∃ cat, handler (some "k") ⟨"POST", .ok (some ⟨"image/png", [137]⟩)⟩
        ⟨200, some "I think this is made of METAL and recyclable"⟩
        = .success ⟨some (.str cat), .fin fallbackConfidence,
            .str (substringTake "I think this is made of METAL and recyclable" 200)⟩
      ∧ ((cat ∈ categories
            ∧ occursIn "I think this is made of METAL and recyclable" cat = true
            ∧ ∀ d ∈ categories.takeWhile (· != cat),
                occursIn "I think this is made of METAL and recyclable" d = false)
         ∨ (cat = "Plastic"
            ∧ ∀ d ∈ categories,
                occursIn "I think this is made of METAL and recyclable" d = false)))
    ∧ handler (some "k") ⟨"POST", .ok (some ⟨"image/png", [137]⟩)⟩
        ⟨200, some "I think this is made of METAL and recyclable"⟩
      = .success ⟨some (.str "Metal"), .fin fallbackConfidence,
          .str "I think this is made of METAL and recyclable"⟩ :=
  ⟨claim4_keyword_fallback (some "k") ⟨"POST", .ok (some ⟨"image/png", [137]⟩)⟩
      ⟨200, some "I think this is made of METAL and recyclable"⟩ ⟨"image/png", [137]⟩
      "I think this is made of METAL and recyclable"
      rfl (by decide) rfl rfl rfl (by decide) rfl,
   rfl⟩

/- ---------------------------------------------------------------
   Claims C6, C7, C8, C10.
   --------------------------------------------------------------- -/

/-- Claim C6: a non-success upstream response is mapped deterministically,
with no retry (the handler consumes the single `fetch` response it is
given): status 429 to HTTP 429 with the rate-limit message, status 402 to
HTTP 402 with the credits message, and every other non-success status to
the generic HTTP 500 error (`AI Gateway error: <status>` thrown and
caught by the top-level catch). -/
theorem claim6_status_mapping (key : Option String) (req : Request) (u : UpstreamResp)
    (f : ImageFile)
    (hkey : truthyKey key = true) (hm : req.method ≠ "OPTIONS")
    (hform : req.form = .ok (some f)) (hfail : upstreamOk u = false) :
    (u.status = 429 → handler key req u
        = .errorJson 429 "Rate limit exceeded. Please try again later.")
    ∧ (u.status = 402 → handler key req u
        = .errorJson 402 "AI credits exhausted. Please add credits to your workspace.")
    ∧ (u.status ≠ 429 → u.status ≠ 402 → handler key req u
        = .serverError ("AI Gateway error: " ++ toString u.status)) := by
  unfold handler handleTry
  rw [beq_eq_false_iff_ne.mpr hm, hkey, hform, hfail]
  refine ⟨?_, ?_, ?_⟩
  · intro h429
    rw [h429]
    rfl
  · intro h402
    rw [h402]
    rfl
  · intro h1 h2
    rw [beq_eq_false_iff_ne.mpr h1, beq_eq_false_iff_ne.mpr h2]
    rfl

/-- Claim C6, witness: the three mapping branches at statuses 429, 402
and 503. -/
theorem claim6_witness :
    handler (some "k") ⟨"POST", .ok (some ⟨"image/png", []⟩)⟩ ⟨429, none⟩
      = .errorJson 429 "Rate limit exceeded. Please try again later."
    ∧ handler (some "k") ⟨"POST", .ok (some ⟨"image/png", []⟩)⟩ ⟨402, none⟩
      = .errorJson 402 "AI credits exhausted. Please add credits to your workspace."
    ∧ handler (some "k") ⟨"POST", .ok (some ⟨"image/png", []⟩)⟩ ⟨503, none⟩
      = .serverError "AI Gateway error: 503" :=
  ⟨(claim6_status_mapping (some "k") ⟨"POST", .ok (some ⟨"image/png", []⟩)⟩ ⟨429, none⟩
      ⟨"image/png", []⟩ rfl (by decide) rfl rfl).1 rfl,
   (claim6_status_mapping (some "k") ⟨"POST", .ok (some ⟨"image/png", []⟩)⟩ ⟨402, none⟩
      ⟨"image/png", []⟩ rfl (by decide) rfl rfl).2.1 rfl,
   (claim6_status_mapping (some "k") ⟨"POST", .ok (some ⟨"image/png", []⟩)⟩ ⟨503, none⟩
      ⟨"image/png", []⟩ rfl (by decide) rfl rfl).2.2 (by decide) (by decide)⟩

/-- Claim C7: when the bearer credential is absent from the environment
(or empty, equally falsy), every non-preflight request receives the HTTP
500 configuration error — for any form content and, in particular, for
any upstream behavior, since the failure precedes the outbound call (the
conclusion does not depend on `u`). -/
theorem claim7_missing_key (key : Option String) (req : Request) (u : UpstreamResp)
    (hkey : key = none ∨ key = some "") (hm : req.method ≠ "OPTIONS") :
    handler key req u = .serverError "LOVABLE_API_KEY not configured" := by
  have hk : truthyKey key = false := by
    rcases hkey with rfl | rfl <;> rfl
  unfold handler handleTry
  rw [beq_eq_false_iff_ne.mpr hm, hk]
  rfl

/-- Claim C7, witness: the theorem applied to an absent and to an empty
credential, with arbitrary differing requests and upstream responses. -/
theorem claim7_witness :
    handler none ⟨"POST", .error "bad form"⟩ ⟨200, some "x"⟩
      = .serverError "LOVABLE_API_KEY not configured"
    ∧ handler (some "") ⟨"GET", .ok none⟩ ⟨500, none⟩
      = .serverError "LOVABLE_API_KEY not configured" :=
  ⟨claim7_missing_key none ⟨"POST", .error "bad form"⟩ ⟨200, some "x"⟩
      (Or.inl rfl) (by decide),
   claim7_missing_key (some "") ⟨"GET", .ok none⟩ ⟨500, none⟩
      (Or.inr rfl) (by decide)⟩

/-- Claim C8: when the multipart form of a non-preflight request (under a
configured credential) contains no image field, the handler responds with
HTTP 400 and body `{error: "No image provided"}`. -/
theorem claim8_no_image (key : Option String) (req : Request) (u : UpstreamResp)
    (hkey : truthyKey key = true) (hm : req.method ≠ "OPTIONS")
    (hform : req.form = .ok none) :
    handler key req u = .errorJson 400 "No image provided" := by
  unfold handler handleTry
  rw [beq_eq_false_iff_ne.mpr hm, hkey, hform]
  rfl

/-- Claim C8, witness: a POST with no image field under a configured
credential. -/
theorem claim8_witness :
    handler (some "k") ⟨"POST", .ok none⟩ ⟨200, none⟩
      = .errorJson 400 "No image provided" :=
  claim8_no_image (some "k") ⟨"POST", .ok none⟩ ⟨200, none⟩ rfl (by decide) rfl

/-- Claim C10: the credential check precedes the image-field check: with
a falsy credential even an image-less non-preflight request receives the
HTTP 500 configuration error, and conversely the HTTP 400
`No image provided` response is only reachable with a truthy
credential. -/
theorem claim10_key_check_precedes :
    (∀ (key : Option String) (req : Request) (u : UpstreamResp),
        req.method ≠ "OPTIONS" → truthyKey key = false → req.form = .ok none →
        handler key req u = .serverError "LOVABLE_API_KEY not configured")
    ∧ (∀ (key : Option String) (req : Request) (u : UpstreamResp),
        handler key req u = .errorJson 400 "No image provided" →
        truthyKey key = true) := by
  constructor
  · intro key req u hm hk _hform
    unfold handler handleTry
    rw [beq_eq_false_iff_ne.mpr hm, hk]
    rfl
  · intro key req u h
    by_cases hm : req.method = "OPTIONS"
    · unfold handler at h
      rw [hm] at h
      exact HResp.noConfusion
        (show HResp.preflight = HResp.errorJson 400 "No image provided" from h)
    · cases hk : truthyKey key with
      | false =>
        unfold handler handleTry at h
        rw [beq_eq_false_iff_ne.mpr hm, hk] at h
        exact HResp.noConfusion
          (show HResp.serverError "LOVABLE_API_KEY not configured"
            = HResp.errorJson 400 "No image provided" from h)
      | true => rfl

/-- Claim C10, witness: an image-less request under an absent credential
receives the configuration 500 (first part), and a 400 `No image
provided` response obtained under the credential `"secret"` certifies the
credential truthy (second part). -/
theorem claim10_witness :
    handler none ⟨"DELETE", .ok none⟩ ⟨201, none⟩
      = .serverError "LOVABLE_API_KEY not configured"
    ∧ truthyKey (some "secret") = true :=
  ⟨claim10_key_check_precedes.1 none ⟨"DELETE", .ok none⟩ ⟨201, none⟩
      (by decide) rfl rfl,
   claim10_key_check_precedes.2 (some "secret") ⟨"PUT", .ok none⟩ ⟨200, none⟩ rfl⟩

end Waste
